import Mathlib

/-!
Shallow embedding of the planning-poker room coordinator
(`src/worker/index.ts`, class `PlanningPokerRoom`).

Connections (JS `WebSocket` objects, the keys of the `sessions` Map) are
modelled as natural numbers.  The per-connection durable attachment written
by `serializeAttachment` is modelled explicitly next to the in-memory
session fields, so that the hibernation-recovery contract can be stated.
Outbound effects (`webSocket.send`, `webSocket.close`) are returned as an
ordered list of actions, in the order the source emits them.  JS `Map`
iteration order is insertion order, modelled by list order.
-/

namespace PlanningPoker

/-- The recoverable fields of a session: `userId`, `name`, `vote`
(`SessionData` in the source, minus the `webSocket` handle, which is the
registry key). Also the shape of the durable attachment. -/
structure SessionData where
  userId : String
  name : String
  vote : Option String
deriving Repr, DecidableEq

/-- Inbound tagged union, `ClientMessage` in the source. -/
inductive ClientMessage where
  | join (name : String)
  | vote (card : Option String)
  | reveal
  | reset
  | emoji (targetUserId : String) (emoji : String)
deriving Repr, DecidableEq

/-- One entry of the `users` array of a `state` message. -/
structure UserInfo where
  id : String
  name : String
  hasVoted : Bool
deriving Repr, DecidableEq

/-- Outbound tagged union, `ServerMessage` in the source.  A votes
map (JS object `userId → vote`) is modelled as an association list in
construction order. -/
inductive ServerMessage where
  | joined (userId : String) (name : String)
  | userJoined (userId : String) (name : String)
  | userLeft (userId : String)
  | voted (userId : String) (hasVoted : Bool)
  | revealed (votes : List (String × Option String))
  | reset
  | state (users : List UserInfo) (revealed : Bool)
      (votes : Option (List (String × Option String)))
  | emoji (fromUserId : String) (toUserId : String) (emoji : String)
  | error (message : String)
deriving Repr, DecidableEq

/-- An observable outbound effect of a handler. -/
inductive Action where
  | send (dst : Nat) (msg : ServerMessage)
  | close (conn : Nat) (code : Nat) (reason : String)
deriving Repr, DecidableEq

/-- One entry of the room's session registry: the connection key, the
in-memory `SessionData`, and the durable attachment last written with
`serializeAttachment`. -/
structure SessEntry where
  ws : Nat
  data : SessionData
  attach : SessionData
deriving Repr, DecidableEq

/-- The room coordinator state: the registry (insertion-ordered) and the
room-wide `revealed` flag. -/
structure RoomState where
  sessions : List SessEntry
  revealed : Bool
deriving Repr, DecidableEq

/-- The filter `(s) => s.name` used throughout the source: a session is
listed/broadcast-eligible iff its name is non-empty. -/
def namedB (e : SessEntry) : Bool :=
  e.data.name != ""

/-- Recipient eligibility in `broadcast`: skip the excluded connection and
skip anonymous sessions. -/
def eligibleB (exclude : Option Nat) (e : SessEntry) : Bool :=
  (match exclude with
   | some x => e.ws != x
   | none => true) && namedB e

/-- The `users` array of a `state` message: `{id, name, hasVoted}` for
every named session, in registry order. -/
def usersOf (sessions : List SessEntry) : List UserInfo :=
  (sessions.filter namedB).map
    (fun e => { id := e.data.userId, name := e.data.name, hasVoted := e.data.vote.isSome })

/-- The votes map built by the `reveal` case and by the `state` message
when `revealed` is true: `userId → vote` for every named session. -/
def votesOf (sessions : List SessEntry) : List (String × Option String) :=
  (sessions.filter namedB).map (fun e => (e.data.userId, e.data.vote))

/-- Method `PlanningPokerRoom.broadcast`: send `msg` to every session that is not
`exclude` and has a non-empty name; a recipient in `fails` throws on
`send` and is recorded as a quitter; quitters are removed from the
registry after the fan-out loop.  Returns the delivered sends (in registry
order) and the registry after quitter removal. -/
def broadcast (sessions : List SessEntry) (msg : ServerMessage)
    (exclude : Option Nat) (fails : List Nat) :
    List Action × List SessEntry :=
  ((sessions.filter (fun e => eligibleB exclude e && !(fails.contains e.ws))).map
      (fun e => Action.send e.ws msg),
   sessions.filter (fun e => !(eligibleB exclude e && fails.contains e.ws)))

/-- The `join` case's `session.name = data.name.slice(0, 32)` followed by
`serializeAttachment` of the (updated) session fields. -/
def setName (sessions : List SessEntry) (c : Nat) (newName : String) : List SessEntry :=
  sessions.map (fun e =>
    if e.ws == c then
      { ws := e.ws,
        data := { userId := e.data.userId, name := newName, vote := e.data.vote },
        attach := { userId := e.data.userId, name := newName, vote := e.data.vote } }
    else e)

/-- The `vote` case's `session.vote = data.card` followed by
`serializeAttachment` of the updated session fields. -/
def setVote (sessions : List SessEntry) (c : Nat) (card : Option String) : List SessEntry :=
  sessions.map (fun e =>
    if e.ws == c then
      { ws := e.ws,
        data := { userId := e.data.userId, name := e.data.name, vote := card },
        attach := { userId := e.data.userId, name := e.data.name, vote := card } }
    else e)

/-- The `reset` case's loop: clear every session's vote (named or not) and
rewrite its attachment. -/
def resetVotes (sessions : List SessEntry) : List SessEntry :=
  sessions.map (fun e =>
    { ws := e.ws,
      data := { userId := e.data.userId, name := e.data.name, vote := none },
      attach := { userId := e.data.userId, name := e.data.name, vote := none } })

/-- Method `PlanningPokerRoom.handleSession`: accept a connection, create an
anonymous session with the freshly generated `userId`, and serialize the
matching attachment. -/
def handleSession (s : RoomState) (c : Nat) (uid : String) : RoomState :=
  { sessions := s.sessions ++
      [{ ws := c,
         data := { userId := uid, name := "", vote := none },
         attach := { userId := uid, name := "", vote := none } }],
    revealed := s.revealed }

/-- The inbound wire as seen by `webSocketMessage`: a frame whose
`JSON.parse` (or field access) throws with message `errMsg`, a frame that
parses but whose tag matches no `switch` case, or a recognized message. -/
inductive Inbound where
  | malformed (errMsg : String)
  | unknownTag
  | msg (m : ClientMessage)
deriving Repr, DecidableEq

/-- Method `PlanningPokerRoom.webSocketMessage`: the coordinator's single message
handler.  Returns the post-state and the ordered list of emitted actions.
Sends are modelled as succeeding (send failure is modelled in
`broadcast`'s `fails` parameter and studied separately). -/
def webSocketMessage (s : RoomState) (c : Nat) (inb : Inbound) :
    RoomState × List Action :=
  match s.sessions.find? (fun e => e.ws == c) with
  | none => (s, [Action.close c 1011 "Session not found"])
  | some sess =>
    match inb with
    | Inbound.malformed err => (s, [Action.send c (ServerMessage.error err)])
    | Inbound.unknownTag => (s, [])
    | Inbound.msg m =>
      match m with
      | ClientMessage.join nm =>
        let sessions1 := setName s.sessions c (nm.take 32)
        let stMsg := ServerMessage.state (usersOf sessions1) s.revealed
          (if s.revealed then some (votesOf sessions1) else none)
        let b := broadcast sessions1
          (ServerMessage.userJoined sess.data.userId (nm.take 32)) (some c) []
        ({ sessions := b.2, revealed := s.revealed },
         Action.send c stMsg
           :: Action.send c (ServerMessage.joined sess.data.userId (nm.take 32))
           :: b.1)
      | ClientMessage.vote card =>
        if sess.data.name = "" then
          (s, [Action.send c (ServerMessage.error "Must join first")])
        else
          let sessions1 := setVote s.sessions c card
          let b := broadcast sessions1
            (ServerMessage.voted sess.data.userId card.isSome) none []
          ({ sessions := b.2, revealed := s.revealed }, b.1)
      | ClientMessage.reveal =>
        if sess.data.name = "" then
          (s, [Action.send c (ServerMessage.error "Must join first")])
        else
          let b := broadcast s.sessions
            (ServerMessage.revealed (votesOf s.sessions)) none []
          ({ sessions := b.2, revealed := true }, b.1)
      | ClientMessage.emoji target em =>
        if sess.data.name = "" then
          (s, [Action.send c (ServerMessage.error "Must join first")])
        else
          let b := broadcast s.sessions
            (ServerMessage.emoji sess.data.userId target em) none []
          ({ sessions := b.2, revealed := s.revealed }, b.1)
      | ClientMessage.reset =>
        if sess.data.name = "" then
          (s, [Action.send c (ServerMessage.error "Must join first")])
        else
          let sessions1 := resetVotes s.sessions
          let b := broadcast sessions1 ServerMessage.reset none []
          ({ sessions := b.2, revealed := false }, b.1)

/-- Method `PlanningPokerRoom.closeOrErrorHandler`, invoked from both
`webSocketClose` and `webSocketError`: broadcast `userLeft` if the session
was named, then delete it unconditionally. -/
def closeOrErrorHandler (s : RoomState) (c : Nat) : RoomState × List Action :=
  match s.sessions.find? (fun e => e.ws == c) with
  | some sess =>
    if sess.data.name != "" then
      let b := broadcast s.sessions (ServerMessage.userLeft sess.data.userId) none []
      ({ sessions := b.2.filter (fun e => e.ws != c), revealed := s.revealed }, b.1)
    else
      ({ sessions := s.sessions.filter (fun e => e.ws != c), revealed := s.revealed }, [])
  | none =>
    ({ sessions := s.sessions.filter (fun e => e.ws != c), revealed := s.revealed }, [])

/-- The `PlanningPokerRoom` constructor's hibernation-recovery loop:
rebuild the registry by reading the attachment of every still-open
connection; `revealed` is field-initialized to `false`. -/
def restoreSessions (conns : List (Nat × SessionData)) : RoomState :=
  { sessions := conns.map (fun p => { ws := p.1, data := p.2, attach := p.2 }),
    revealed := false }

/-- A server message carries no raw vote values: it is neither a
`revealed` message nor a `state` message with a votes map. -/
def msgVoteFree : ServerMessage → Bool
  | ServerMessage.revealed _ => false
  | ServerMessage.state _ _ (some _) => false
  | _ => true

/-- An action carries no raw vote values. -/
def actionVoteFree : Action → Bool
  | Action.send _ m => msgVoteFree m
  | Action.close _ _ _ => true

/-- The join-gated client messages: `vote`, `reveal`, `reset`, `emoji`. -/
def joinGated : ClientMessage → Bool
  | ClientMessage.join _ => false
  | _ => true

/-- Registry/attachment synchrony: every session's durable attachment
equals its in-memory fields. -/
def attachSync (s : RoomState) : Prop :=
  ∀ e ∈ s.sessions, e.attach = e.data

instance (s : RoomState) : Decidable (attachSync s) := by
  unfold attachSync; infer_instance

/-- A concrete anonymous session on connection 0 (has not joined). -/
def entryA : SessEntry :=
  { ws := 0,
    data := { userId := "a", name := "", vote := none },
    attach := { userId := "a", name := "", vote := none } }

/-- A concrete named session on connection 1 that has voted. -/
def entryB : SessEntry :=
  { ws := 1,
    data := { userId := "b", name := "Bob", vote := some "5" },
    attach := { userId := "b", name := "Bob", vote := some "5" } }

/-- A concrete named session on connection 2 that has not voted. -/
def entryC : SessEntry :=
  { ws := 2,
    data := { userId := "c", name := "Cleo", vote := none },
    attach := { userId := "c", name := "Cleo", vote := none } }

/-- A concrete hidden room with one anonymous and one named session. -/
def roomHidden : RoomState :=
  { sessions := [entryA, entryB], revealed := false }

/-- A concrete hidden room with one anonymous and two named sessions. -/
def roomThree : RoomState :=
  { sessions := [entryA, entryB, entryC], revealed := false }


/-! Helper lemmas about the embedded operations. -/

/-- With no excluded connection, eligibility is exactly namedness. -/
theorem eligibleB_none : eligibleB none = namedB := by
  funext e
  simp [eligibleB]

/-- A broadcast with no send failures delivers to every eligible session
and leaves the registry unchanged. -/
theorem broadcast_no_fails (sessions : List SessEntry) (msg : ServerMessage)
    (exclude : Option Nat) :
    broadcast sessions msg exclude [] =
      ((sessions.filter (eligibleB exclude)).map (fun e => Action.send e.ws msg),
       sessions) := by
  simp [broadcast]

/-- Unfolding of `webSocketMessage` on a recognized `join`. -/
theorem wsm_join (s : RoomState) (c : Nat) (sess : SessEntry) (nm : String)
    (hfind : s.sessions.find? (fun e => e.ws == c) = some sess) :
    webSocketMessage s c (Inbound.msg (ClientMessage.join nm)) =
      ({ sessions := setName s.sessions c (nm.take 32), revealed := s.revealed },
       Action.send c (ServerMessage.state (usersOf (setName s.sessions c (nm.take 32)))
           s.revealed
           (if s.revealed then some (votesOf (setName s.sessions c (nm.take 32))) else none))
         :: Action.send c (ServerMessage.joined sess.data.userId (nm.take 32))
         :: ((setName s.sessions c (nm.take 32)).filter (eligibleB (some c))).map
              (fun e => Action.send e.ws
                (ServerMessage.userJoined sess.data.userId (nm.take 32)))) := by
  simp [webSocketMessage, hfind, broadcast_no_fails]

/-- Unfolding of `webSocketMessage` on a join-gated message from a session
whose name is empty. -/
theorem wsm_gated_anon (s : RoomState) (c : Nat) (sess : SessEntry) (m : ClientMessage)
    (hfind : s.sessions.find? (fun e => e.ws == c) = some sess)
    (hname : sess.data.name = "") (hm : joinGated m = true) :
    webSocketMessage s c (Inbound.msg m) =
      (s, [Action.send c (ServerMessage.error "Must join first")]) := by
  cases m with
  | join nm => simp [joinGated] at hm
  | vote card => simp [webSocketMessage, hfind, hname]
  | reveal => simp [webSocketMessage, hfind, hname]
  | reset => simp [webSocketMessage, hfind, hname]
  | emoji t em => simp [webSocketMessage, hfind, hname]

/-- Unfolding of `webSocketMessage` on a `vote` from a named session. -/
theorem wsm_vote_named (s : RoomState) (c : Nat) (sess : SessEntry) (card : Option String)
    (hfind : s.sessions.find? (fun e => e.ws == c) = some sess)
    (hname : sess.data.name ≠ "") :
    webSocketMessage s c (Inbound.msg (ClientMessage.vote card)) =
      ({ sessions := setVote s.sessions c card, revealed := s.revealed },
       ((setVote s.sessions c card).filter namedB).map
         (fun e => Action.send e.ws (ServerMessage.voted sess.data.userId card.isSome))) := by
  simp [webSocketMessage, hfind, hname, broadcast_no_fails, eligibleB_none]

/-- Unfolding of `webSocketMessage` on a `reveal` from a named session. -/
theorem wsm_reveal_named (s : RoomState) (c : Nat) (sess : SessEntry)
    (hfind : s.sessions.find? (fun e => e.ws == c) = some sess)
    (hname : sess.data.name ≠ "") :
    webSocketMessage s c (Inbound.msg ClientMessage.reveal) =
      ({ sessions := s.sessions, revealed := true },
       (s.sessions.filter namedB).map
         (fun e => Action.send e.ws (ServerMessage.revealed (votesOf s.sessions)))) := by
  simp [webSocketMessage, hfind, hname, broadcast_no_fails, eligibleB_none]

/-- Unfolding of `webSocketMessage` on an `emoji` from a named session. -/
theorem wsm_emoji_named (s : RoomState) (c : Nat) (sess : SessEntry) (t em : String)
    (hfind : s.sessions.find? (fun e => e.ws == c) = some sess)
    (hname : sess.data.name ≠ "") :
    webSocketMessage s c (Inbound.msg (ClientMessage.emoji t em)) =
      ({ sessions := s.sessions, revealed := s.revealed },
       (s.sessions.filter namedB).map
         (fun e => Action.send e.ws (ServerMessage.emoji sess.data.userId t em))) := by
  simp [webSocketMessage, hfind, hname, broadcast_no_fails, eligibleB_none]

/-- Unfolding of `webSocketMessage` on a `reset` from a named session. -/
theorem wsm_reset_named (s : RoomState) (c : Nat) (sess : SessEntry)
    (hfind : s.sessions.find? (fun e => e.ws == c) = some sess)
    (hname : sess.data.name ≠ "") :
    webSocketMessage s c (Inbound.msg ClientMessage.reset) =
      ({ sessions := resetVotes s.sessions, revealed := false },
       ((resetVotes s.sessions).filter namedB).map
         (fun e => Action.send e.ws ServerMessage.reset)) := by
  simp [webSocketMessage, hfind, hname, broadcast_no_fails, eligibleB_none]

/-- Unfolding of `webSocketMessage` on a frame whose parse threw. -/
theorem wsm_malformed (s : RoomState) (c : Nat) (sess : SessEntry) (err : String)
    (hfind : s.sessions.find? (fun e => e.ws == c) = some sess) :
    webSocketMessage s c (Inbound.malformed err) =
      (s, [Action.send c (ServerMessage.error err)]) := by
  simp [webSocketMessage, hfind]

/-- Unfolding of `webSocketMessage` on a frame with an unrecognized tag. -/
theorem wsm_unknown (s : RoomState) (c : Nat) (sess : SessEntry)
    (hfind : s.sessions.find? (fun e => e.ws == c) = some sess) :
    webSocketMessage s c Inbound.unknownTag = (s, []) := by
  simp [webSocketMessage, hfind]

/-! Claim theorems. -/

/-- C3: for every session whose name is empty, an inbound `vote`, `reveal`,
`reset`, or `emoji` message from that session produces exactly one
`error "Must join first"` send to that session's own connection, leaves
the room state (every session's fields, every attachment, and `revealed`)
unchanged, and sends nothing to any other session. -/
theorem unjoined_gated_action_error_only (s : RoomState) (c : Nat) (sess : SessEntry)
    (m : ClientMessage)
    (hfind : s.sessions.find? (fun e => e.ws == c) = some sess)
    (hname : sess.data.name = "") (hm : joinGated m = true) :
    webSocketMessage s c (Inbound.msg m) =
      (s, [Action.send c (ServerMessage.error "Must join first")]) :=
  wsm_gated_anon s c sess m hfind hname hm

set_option maxRecDepth 10000 in
/-- Witness for C3: the anonymous session on connection 0 of `roomHidden`
sending `reveal` gets only the error reply and mutates nothing. -/
theorem unjoined_gated_action_error_only_witness :
    webSocketMessage roomHidden 0 (Inbound.msg ClientMessage.reveal) =
      (roomHidden, [Action.send 0 (ServerMessage.error "Must join first")]) :=
  unjoined_gated_action_error_only roomHidden 0 entryA ClientMessage.reveal
    (by decide) (by decide) (by decide)

/-- C6 (amended): a frame that fails to parse draws an `error` reply with
the thrown message to the originating connection only and mutates nothing;
a frame that parses but carries an unrecognized tag is silently ignored
(no reply at all) and mutates nothing.  In both cases the coordinator
emits no close and no message to any other session. -/
theorem malformed_or_unknown_no_mutation (s : RoomState) (c : Nat) (sess : SessEntry)
    (hfind : s.sessions.find? (fun e => e.ws == c) = some sess) :
    (∀ err, webSocketMessage s c (Inbound.malformed err) =
      (s, [Action.send c (ServerMessage.error err)])) ∧
    webSocketMessage s c Inbound.unknownTag = (s, []) :=
  ⟨fun err => wsm_malformed s c sess err hfind, wsm_unknown s c sess hfind⟩

set_option maxRecDepth 10000 in
/-- Witness for C6: concrete malformed and unknown-tag frames on
`roomHidden`, connection 1. -/
theorem malformed_or_unknown_no_mutation_witness :
    webSocketMessage roomHidden 1 (Inbound.malformed "Unexpected token")
        = (roomHidden, [Action.send 1 (ServerMessage.error "Unexpected token")]) ∧
    webSocketMessage roomHidden 1 Inbound.unknownTag = (roomHidden, []) :=
  ⟨(malformed_or_unknown_no_mutation roomHidden 1 entryB (by decide)).1 "Unexpected token",
   (malformed_or_unknown_no_mutation roomHidden 1 entryB (by decide)).2⟩

set_option maxRecDepth 10000 in
/-- Counterexample for C6 as stated: a message whose tag is none of
`join`, `vote`, `reveal`, `reset`, `emoji` does NOT draw an error reply:
the `switch` has no default case, so the coordinator sends nothing at all
to the originating connection. -/
theorem unknown_tag_sends_no_error_reply :
    (webSocketMessage roomHidden 1 Inbound.unknownTag).2 = [] := by
  decide

/-- C1: in a room state with `revealed = false`, processing any inbound
message emits no action carrying raw vote values — every emitted message
is vote-free (in particular `voted` carries only the `hasVoted` boolean
and the `state` message sent on join omits its votes map) — except for the
`reveal` transition itself, whose `revealed` broadcast is emitted only
after the handler has set the room's `revealed` flag to `true`. -/
theorem hidden_state_no_vote_leak (s : RoomState) (c : Nat) (inb : Inbound)
    (hrev : s.revealed = false) :
    ∀ a ∈ (webSocketMessage s c inb).2,
      actionVoteFree a = true ∨
        (inb = Inbound.msg ClientMessage.reveal ∧
          (webSocketMessage s c inb).1.revealed = true) := by
  intro a ha
  rcases hf : s.sessions.find? (fun e => e.ws == c) with _ | sess
  · left
    simp [webSocketMessage, hf] at ha
    simp [ha, actionVoteFree]
  · cases inb with
    | malformed err =>
      left
      rw [wsm_malformed s c sess err hf] at ha
      simp at ha
      simp [ha, actionVoteFree, msgVoteFree]
    | unknownTag =>
      rw [wsm_unknown s c sess hf] at ha
      simp at ha
    | msg m =>
      cases m with
      | join nm =>
        left
        rw [wsm_join s c sess nm hf] at ha
        simp [hrev] at ha
        rcases ha with rfl | rfl | ⟨e, _, rfl⟩ <;>
          simp [actionVoteFree, msgVoteFree]
      | vote card =>
        left
        by_cases hn : sess.data.name = ""
        · rw [wsm_gated_anon s c sess _ hf hn (by simp [joinGated])] at ha
          simp at ha
          simp [ha, actionVoteFree, msgVoteFree]
        · rw [wsm_vote_named s c sess card hf hn] at ha
          simp at ha
          rcases ha with ⟨e, _, rfl⟩
          simp [actionVoteFree, msgVoteFree]
      | reveal =>
        by_cases hn : sess.data.name = ""
        · left
          rw [wsm_gated_anon s c sess _ hf hn (by simp [joinGated])] at ha
          simp at ha
          simp [ha, actionVoteFree, msgVoteFree]
        · right
          exact ⟨rfl, by rw [wsm_reveal_named s c sess hf hn]⟩
      | reset =>
        left
        by_cases hn : sess.data.name = ""
        · rw [wsm_gated_anon s c sess _ hf hn (by simp [joinGated])] at ha
          simp at ha
          simp [ha, actionVoteFree, msgVoteFree]
        · rw [wsm_reset_named s c sess hf hn] at ha
          simp at ha
          rcases ha with ⟨e, _, rfl⟩
          simp [actionVoteFree, msgVoteFree]
      | emoji t em =>
        left
        by_cases hn : sess.data.name = ""
        · rw [wsm_gated_anon s c sess _ hf hn (by simp [joinGated])] at ha
          simp at ha
          simp [ha, actionVoteFree, msgVoteFree]
        · rw [wsm_emoji_named s c sess t em hf hn] at ha
          simp at ha
          rcases ha with ⟨e, _, rfl⟩
          simp [actionVoteFree, msgVoteFree]

set_option maxRecDepth 10000 in
/-- Witness for C1: the `voted` broadcast produced by Bob's vote in the
hidden `roomHidden` is vote-free. -/
theorem hidden_state_no_vote_leak_witness :
    actionVoteFree (Action.send 1 (ServerMessage.voted "b" true)) = true ∨
      (Inbound.msg (ClientMessage.vote (some "3")) = Inbound.msg ClientMessage.reveal ∧
        (webSocketMessage roomHidden 1
            (Inbound.msg (ClientMessage.vote (some "3")))).1.revealed = true) :=
  hidden_state_no_vote_leak roomHidden 1 (Inbound.msg (ClientMessage.vote (some "3")))
    (by decide) (Action.send 1 (ServerMessage.voted "b" true)) (by decide)

/-- C2: a `reveal` from a joined (named) session sets `revealed` to true,
leaves the registry unchanged, and broadcasts to every named session a
`revealed` message whose votes map is exactly `userId → current vote` over
the sessions named at the moment of reveal — so its key list equals the
named sessions' userIds, and a named session that has not voted appears
with a `none` (null) entry. -/
theorem reveal_broadcasts_full_named_votes (s : RoomState) (c : Nat) (sess : SessEntry)
    (hfind : s.sessions.find? (fun e => e.ws == c) = some sess)
    (hname : sess.data.name ≠ "") :
    (webSocketMessage s c (Inbound.msg ClientMessage.reveal)).1.revealed = true ∧
    (webSocketMessage s c (Inbound.msg ClientMessage.reveal)).1.sessions = s.sessions ∧
    (webSocketMessage s c (Inbound.msg ClientMessage.reveal)).2 =
      (s.sessions.filter namedB).map
        (fun e => Action.send e.ws (ServerMessage.revealed (votesOf s.sessions))) ∧
    (votesOf s.sessions).map Prod.fst =
      (s.sessions.filter namedB).map (fun e => e.data.userId) ∧
    ∀ e ∈ s.sessions, namedB e = true →
      (e.data.userId, e.data.vote) ∈ votesOf s.sessions := by
  rw [wsm_reveal_named s c sess hfind hname]
  refine ⟨rfl, rfl, rfl, ?_, ?_⟩
  · simp [votesOf, List.map_map, Function.comp]
  · intro e he hne
    unfold votesOf
    exact List.mem_map.mpr ⟨e, List.mem_filter.mpr ⟨he, hne⟩, rfl⟩

set_option maxRecDepth 10000 in
/-- Witness for C2: Bob reveals in `roomHidden`; the non-voter entry and
the flag flip are observable concretely. -/
theorem reveal_broadcasts_full_named_votes_witness :
    (webSocketMessage roomHidden 1 (Inbound.msg ClientMessage.reveal)).1.revealed = true ∧
    ("b", some "5") ∈ votesOf roomHidden.sessions :=
  ⟨(reveal_broadcasts_full_named_votes roomHidden 1 entryB (by decide) (by decide)).1,
   (reveal_broadcasts_full_named_votes roomHidden 1 entryB (by decide)
      (by decide)).2.2.2.2 entryB (by decide) (by decide)⟩

/-- Membership in `usersOf`: a named registry entry is listed. -/
theorem mem_usersOf_of_mem (l : List SessEntry) (u : SessEntry)
    (hu : u ∈ l) (hn : namedB u = true) :
    ({ id := u.data.userId, name := u.data.name,
       hasVoted := u.data.vote.isSome } : UserInfo) ∈ usersOf l := by
  unfold usersOf
  exact List.mem_map.mpr ⟨u, List.mem_filter.mpr ⟨hu, hn⟩, rfl⟩

set_option maxRecDepth 10000 in
/-- C4 (amended): a `join` sets the session's name to the supplied name
truncated to 32 characters and performs exactly, in order: (a) a `state`
send to the requester listing `id`, `name`, `hasVoted` for every named
session — including the requester itself whenever its updated name is
non-empty — together with the room's `revealed` flag and the full vote
map if and only if `revealed` is true; (b) a `joined` send to the
requester with its `userId` and new name; (c) a `userJoined` broadcast to
every other named session.  A repeated join performs the same sequence
with the updated name. -/
theorem join_effects (s : RoomState) (c : Nat) (sess : SessEntry) (nm : String)
    (hfind : s.sessions.find? (fun e => e.ws == c) = some sess) :
    (webSocketMessage s c (Inbound.msg (ClientMessage.join nm)) =
      ({ sessions := setName s.sessions c (nm.take 32), revealed := s.revealed },
       Action.send c (ServerMessage.state (usersOf (setName s.sessions c (nm.take 32)))
           s.revealed
           (if s.revealed then some (votesOf (setName s.sessions c (nm.take 32))) else none))
         :: Action.send c (ServerMessage.joined sess.data.userId (nm.take 32))
         :: ((setName s.sessions c (nm.take 32)).filter (eligibleB (some c))).map
              (fun e => Action.send e.ws
                (ServerMessage.userJoined sess.data.userId (nm.take 32))))) ∧
    (nm.take 32 ≠ "" →
      ({ id := sess.data.userId, name := nm.take 32,
         hasVoted := sess.data.vote.isSome } : UserInfo)
        ∈ usersOf (setName s.sessions c (nm.take 32))) := by
  refine ⟨wsm_join s c sess nm hfind, ?_⟩
  intro h32
  have hmem : sess ∈ s.sessions := List.mem_of_find?_eq_some hfind
  have hws : sess.ws = c := by simpa using List.find?_some hfind
  have humem : ({ ws := sess.ws,
                  data := { userId := sess.data.userId, name := nm.take 32,
                            vote := sess.data.vote },
                  attach := { userId := sess.data.userId, name := nm.take 32,
                              vote := sess.data.vote } } : SessEntry)
      ∈ setName s.sessions c (nm.take 32) := by
    unfold setName
    refine List.mem_map.mpr ⟨sess, hmem, ?_⟩
    simp [hws]
  have hn : namedB ({ ws := sess.ws,
                      data := { userId := sess.data.userId, name := nm.take 32,
                                vote := sess.data.vote },
                      attach := { userId := sess.data.userId, name := nm.take 32,
                                  vote := sess.data.vote } } : SessEntry) = true := by
    simp only [namedB, bne_iff_ne, ne_eq]
    exact h32
  have hfin := mem_usersOf_of_mem _ _ humem hn
  simpa using hfin

set_option maxRecDepth 10000 in
/-- Witness for C4 (amended): Alice joins `roomHidden` on connection 0 and
is listed in the `state` users she is sent. -/
theorem join_effects_witness :
    ({ id := "a", name := "Alice".take 32, hasVoted := false } : UserInfo)
      ∈ usersOf (setName roomHidden.sessions 0 ("Alice".take 32)) :=
  (join_effects roomHidden 0 entryA "Alice" (by decide)).2 (by decide)

set_option maxRecDepth 10000 in
/-- Counterexample for C4 as stated: a `join` whose name is the empty
string leaves the session anonymous, so the `state` message sent to the
requester (userId `"a"`) lists no entry for the requester itself. -/
theorem join_empty_name_state_omits_requester :
    (webSocketMessage roomHidden 0 (Inbound.msg (ClientMessage.join ""))).2 =
      [Action.send 0 (ServerMessage.state (usersOf (setName roomHidden.sessions 0 ""))
          false none),
       Action.send 0 (ServerMessage.joined "a" ""),
       Action.send 1 (ServerMessage.userJoined "a" "")] ∧
    (usersOf (setName roomHidden.sessions 0 "")).all (fun u => u.id != "a") = true := by
  decide

/-- C10: a `join` from a session that already has a non-empty name changes
only that session's name: the room's `revealed` flag, every session's
`ws`/`userId`/`vote` triple, and every other session's entire entry are
unchanged. -/
theorem rejoin_frame (s : RoomState) (c : Nat) (sess : SessEntry) (nm : String)
    (hfind : s.sessions.find? (fun e => e.ws == c) = some sess)
    (hname : sess.data.name ≠ "") :
    ((webSocketMessage s c (Inbound.msg (ClientMessage.join nm))).1.revealed
        = s.revealed) ∧
    ((webSocketMessage s c (Inbound.msg (ClientMessage.join nm))).1.sessions.map
        (fun e => (e.ws, e.data.userId, e.data.vote)) =
      s.sessions.map (fun e => (e.ws, e.data.userId, e.data.vote))) ∧
    ((webSocketMessage s c (Inbound.msg (ClientMessage.join nm))).1.sessions.filter
        (fun e => e.ws != c) =
      s.sessions.filter (fun e => e.ws != c)) := by
  rw [wsm_join s c sess nm hfind]
  refine ⟨rfl, ?_, ?_⟩
  · unfold setName
    rw [List.map_map]
    apply List.map_congr_left
    intro e _
    by_cases h : e.ws = c
    · simp [h]
    · simp [h]
  · unfold setName
    rw [List.filter_map]
    have hcong : ∀ e ∈ s.sessions,
        ((fun x => x.ws != c) ∘ (fun e : SessEntry =>
          if e.ws == c then
            ({ ws := e.ws,
               data := { userId := e.data.userId, name := nm.take 32, vote := e.data.vote },
               attach := { userId := e.data.userId, name := nm.take 32,
                           vote := e.data.vote } } : SessEntry)
          else e)) e = (e.ws != c) := by
      intro e _
      by_cases h : e.ws = c
      · simp [h]
      · simp [h]
    rw [List.filter_congr hcong]
    conv_rhs => rw [← List.map_id (s.sessions.filter (fun e => e.ws != c))]
    apply List.map_congr_left
    intro e he
    have hne : ¬e.ws = c := by
      have h2 := (List.mem_filter.mp he).2
      simpa using h2
    simp [hne]

set_option maxRecDepth 10000 in
/-- Witness for C10: Bob rejoins as Robert; the other session's entry is
untouched. -/
theorem rejoin_frame_witness :
    (webSocketMessage roomHidden 1 (Inbound.msg (ClientMessage.join "Robert"))).1.sessions.filter
        (fun e => e.ws != 1) =
      roomHidden.sessions.filter (fun e => e.ws != 1) :=
  (rejoin_frame roomHidden 1 entryB "Robert" (by decide) (by decide)).2.2

/-- C5 (amended): a session with empty name never appears in the `users`
list of any `state` message nor in any votes map (`state` or `revealed`),
its disconnect broadcasts nothing, and for every inbound message other
than `join` an anonymous sender causes no send to any other connection.
(The amendment: a `join` whose supplied name truncates to the empty string
does broadcast a `userJoined` with empty name even though the sender stays
anonymous — see the counterexample.) -/
theorem anonymous_sessions_invisible :
    (∀ l : List SessEntry, ∀ u ∈ usersOf l, ∃ e ∈ l, namedB e = true ∧
        u = { id := e.data.userId, name := e.data.name,
              hasVoted := e.data.vote.isSome }) ∧
    (∀ l : List SessEntry, ∀ p ∈ votesOf l, ∃ e ∈ l, namedB e = true ∧
        p = (e.data.userId, e.data.vote)) ∧
    (∀ s : RoomState, ∀ c : Nat, ∀ sess : SessEntry,
        s.sessions.find? (fun e => e.ws == c) = some sess → sess.data.name = "" →
        (closeOrErrorHandler s c).2 = []) ∧
    (∀ s : RoomState, ∀ c : Nat, ∀ sess : SessEntry, ∀ inb : Inbound,
        s.sessions.find? (fun e => e.ws == c) = some sess → sess.data.name = "" →
        (∀ nm, inb ≠ Inbound.msg (ClientMessage.join nm)) →
        ∀ a ∈ (webSocketMessage s c inb).2, ∃ m, a = Action.send c m) := by
  refine ⟨?_, ?_, ?_, ?_⟩
  · intro l u hu
    unfold usersOf at hu
    rcases List.mem_map.mp hu with ⟨e, hef, rfl⟩
    rcases List.mem_filter.mp hef with ⟨he, hn⟩
    exact ⟨e, he, hn, rfl⟩
  · intro l p hp
    unfold votesOf at hp
    rcases List.mem_map.mp hp with ⟨e, hef, rfl⟩
    rcases List.mem_filter.mp hef with ⟨he, hn⟩
    exact ⟨e, he, hn, rfl⟩
  · intro s c sess hfind hname
    simp [closeOrErrorHandler, hfind, hname]
  · intro s c sess inb hfind hname hnotjoin a ha
    cases inb with
    | malformed err =>
      rw [wsm_malformed s c sess err hfind] at ha
      simp at ha
      exact ⟨_, ha⟩
    | unknownTag =>
      rw [wsm_unknown s c sess hfind] at ha
      simp at ha
    | msg m =>
      cases m with
      | join nm => exact absurd rfl (hnotjoin nm)
      | vote card =>
        rw [wsm_gated_anon s c sess _ hfind hname (by simp [joinGated])] at ha
        simp at ha
        exact ⟨_, ha⟩
      | reveal =>
        rw [wsm_gated_anon s c sess _ hfind hname (by simp [joinGated])] at ha
        simp at ha
        exact ⟨_, ha⟩
      | reset =>
        rw [wsm_gated_anon s c sess _ hfind hname (by simp [joinGated])] at ha
        simp at ha
        exact ⟨_, ha⟩
      | emoji t em =>
        rw [wsm_gated_anon s c sess _ hfind hname (by simp [joinGated])] at ha
        simp at ha
        exact ⟨_, ha⟩

set_option maxRecDepth 10000 in
/-- Witness for C5 (amended): the anonymous session on connection 0 of
`roomHidden` disconnects and nothing is broadcast. -/
theorem anonymous_sessions_invisible_witness :
    (closeOrErrorHandler roomHidden 0).2 = [] :=
  anonymous_sessions_invisible.2.2.1 roomHidden 0 entryA (by decide) (by decide)

set_option maxRecDepth 10000 in
/-- Counterexample for C5 as stated: the anonymous session on connection 0
joins with the empty name; it stays anonymous (its registry name is still
empty after processing), yet a `userJoined` broadcast announcing its join
is delivered to the named session on connection 1. -/
theorem anonymous_join_broadcasts_userJoined :
    Action.send 1 (ServerMessage.userJoined "a" "") ∈
      (webSocketMessage roomHidden 0 (Inbound.msg (ClientMessage.join ""))).2 ∧
    ((webSocketMessage roomHidden 0 (Inbound.msg (ClientMessage.join ""))).1.sessions.find?
        (fun e => e.ws == 0)).map (fun e => e.data.name) = some "" := by
  decide

/-- C7: one failing recipient does not abort the broadcast: every other
eligible (named, non-excluded) session still receives exactly the
broadcast message, the failing connections are the ones removed from the
registry — computed against the full pre-broadcast registry, i.e. removal
takes effect only after the fan-out loop — and every delivered action is a
copy of the broadcast message itself, so no `userLeft` (or any other
message) is synthesized for a connection dropped this way. -/
theorem broadcast_failure_isolation (sessions : List SessEntry) (msg : ServerMessage)
    (exclude : Option Nat) (fails : List Nat) :
    ((broadcast sessions msg exclude fails).2 =
      sessions.filter (fun e => !(eligibleB exclude e && fails.contains e.ws))) ∧
    (∀ e ∈ sessions, eligibleB exclude e = true → e.ws ∉ fails →
      Action.send e.ws msg ∈ (broadcast sessions msg exclude fails).1) ∧
    (∀ e ∈ sessions, eligibleB exclude e = true → e.ws ∈ fails →
      e ∉ (broadcast sessions msg exclude fails).2) ∧
    (∀ a ∈ (broadcast sessions msg exclude fails).1, ∃ e ∈ sessions,
      eligibleB exclude e = true ∧ e.ws ∉ fails ∧
      a = Action.send e.ws msg) := by
  refine ⟨rfl, ?_, ?_, ?_⟩
  · intro e he h1 h2
    unfold broadcast
    exact List.mem_map.mpr ⟨e, List.mem_filter.mpr ⟨he, by simp [h1, h2]⟩, rfl⟩
  · intro e _ h1 h2 hmem
    unfold broadcast at hmem
    have hc := (List.mem_filter.mp hmem).2
    simp [h1] at hc
    exact hc h2
  · intro a ha
    unfold broadcast at ha
    rcases List.mem_map.mp ha with ⟨e, hef, rfl⟩
    rcases List.mem_filter.mp hef with ⟨he, hcond⟩
    simp only [Bool.and_eq_true, Bool.not_eq_true'] at hcond
    refine ⟨e, he, hcond.1, ?_, rfl⟩
    simpa using hcond.2

set_option maxRecDepth 10000 in
/-- Witness for C7: Bob's connection (1) fails during a `reset` broadcast
to the two named sessions; Cleo's connection (2) still receives it. -/
theorem broadcast_failure_isolation_witness :
    Action.send 2 ServerMessage.reset ∈
      (broadcast [entryB, entryC] ServerMessage.reset none [1]).1 :=
  (broadcast_failure_isolation [entryB, entryC] ServerMessage.reset none [1]).2.1
    entryC (by decide) (by decide) (by decide)

/-- Counting sends in a fan-out: the number of copies of `send w m` in the
actions of a named-only fan-out equals the number of named registry
entries keyed `w`. -/
theorem count_send_fanout (l : List SessEntry) (m : ServerMessage) (w : Nat) :
    ((l.filter namedB).map (fun x => Action.send x.ws m)).count (Action.send w m) =
      l.countP (fun x => x.ws == w && namedB x) := by
  induction l with
  | nil => simp
  | cons a t ih =>
    by_cases hn : namedB a = true
    · by_cases hw : a.ws = w
      · simp [List.filter_cons, hn, hw, List.count_cons, List.countP_cons, ih]
      · simp [List.filter_cons, hn, hw, List.count_cons, List.countP_cons, ih]
    · have hn2 : namedB a = false := by simpa using hn
      simp [List.filter_cons, hn2, List.countP_cons, ih]

/-- With pairwise-distinct connection keys, exactly one registry entry
matches a named member's key. -/
theorem countP_ws_unique (l : List SessEntry) (e : SessEntry)
    (hnd : (l.map SessEntry.ws).Nodup) (he : e ∈ l) (hn : namedB e = true) :
    l.countP (fun x => x.ws == e.ws && namedB x) = 1 := by
  induction l with
  | nil => cases he
  | cons a t ih =>
    rw [List.map_cons, List.nodup_cons] at hnd
    obtain ⟨hna, hnt⟩ := hnd
    rcases List.mem_cons.mp he with rfl | het
    · have hz : t.countP (fun x => x.ws == e.ws && namedB x) = 0 := by
        apply List.countP_eq_zero.mpr
        intro x hx
        have hne : x.ws ≠ e.ws := by
          intro heq
          exact hna (heq ▸ List.mem_map_of_mem SessEntry.ws hx)
        simp [hne]
      simp [List.countP_cons, hz, hn]
    · have hane : a.ws ≠ e.ws := by
        intro heq
        exact hna (heq ▸ List.mem_map_of_mem SessEntry.ws het)
      simp [List.countP_cons, hane, ih hnt het]

/-- C8: on a connection close or error, if the departing session is named
the handler broadcasts `userLeft` with its `userId` once to each remaining
named session (it is also attempted to the departing connection itself,
still present in the registry during the fan-out); if the departing
session is anonymous nothing is broadcast; in both cases the session is
removed from the registry and `revealed` is unchanged. -/
theorem disconnect_broadcasts_userLeft (s : RoomState) (c : Nat) (sess : SessEntry)
    (hfind : s.sessions.find? (fun e => e.ws == c) = some sess)
    (hnd : (s.sessions.map SessEntry.ws).Nodup) :
    ((closeOrErrorHandler s c).1.sessions = s.sessions.filter (fun e => e.ws != c)) ∧
    ((closeOrErrorHandler s c).1.revealed = s.revealed) ∧
    (sess.data.name = "" → (closeOrErrorHandler s c).2 = []) ∧
    (sess.data.name ≠ "" →
      ((closeOrErrorHandler s c).2 =
        (s.sessions.filter namedB).map
          (fun e => Action.send e.ws (ServerMessage.userLeft sess.data.userId))) ∧
      ∀ e ∈ s.sessions, e.ws ≠ c → namedB e = true →
        (closeOrErrorHandler s c).2.count
          (Action.send e.ws (ServerMessage.userLeft sess.data.userId)) = 1) := by
  by_cases hname : sess.data.name = ""
  · have hreduce : closeOrErrorHandler s c =
        ({ sessions := s.sessions.filter (fun e => e.ws != c),
           revealed := s.revealed }, []) := by
      simp [closeOrErrorHandler, hfind, hname]
    refine ⟨by rw [hreduce], by rw [hreduce], fun _ => by rw [hreduce], fun h => absurd hname h⟩
  · have hreduce : closeOrErrorHandler s c =
        ({ sessions := s.sessions.filter (fun e => e.ws != c),
           revealed := s.revealed },
         (s.sessions.filter namedB).map
           (fun e => Action.send e.ws (ServerMessage.userLeft sess.data.userId))) := by
      simp [closeOrErrorHandler, hfind, hname, broadcast_no_fails, eligibleB_none]
    refine ⟨by rw [hreduce], by rw [hreduce], fun h => absurd h hname, fun _ => ⟨by rw [hreduce], ?_⟩⟩
    intro e he _ hn
    rw [hreduce]
    simp only []
    rw [count_send_fanout]
    exact countP_ws_unique s.sessions e hnd he hn

set_option maxRecDepth 10000 in
/-- Witness for C8: Bob (connection 1) disconnects from `roomThree`; Cleo
(connection 2) receives exactly one `userLeft` for Bob's userId, and Bob
is removed from the registry. -/
theorem disconnect_broadcasts_userLeft_witness :
    (closeOrErrorHandler roomThree 1).2.count
        (Action.send 2 (ServerMessage.userLeft "b")) = 1 ∧
    (closeOrErrorHandler roomThree 1).1.sessions =
      roomThree.sessions.filter (fun e => e.ws != 1) :=
  ⟨((disconnect_broadcasts_userLeft roomThree 1 entryB (by decide) (by decide)).2.2.2
      (by decide)).2 entryC (by decide) (by decide) (by decide),
   (disconnect_broadcasts_userLeft roomThree 1 entryB (by decide) (by decide)).1⟩

/-- Renaming a session rewrites its attachment with the same fields, so
registry/attachment synchrony is preserved. -/
theorem attachSync_setName (l : List SessEntry) (c : Nat) (nm : String)
    (h : ∀ e ∈ l, e.attach = e.data) :
    ∀ e ∈ setName l c nm, e.attach = e.data := by
  intro e he
  unfold setName at he
  rcases List.mem_map.mp he with ⟨x, hx, rfl⟩
  by_cases hw : x.ws = c
  · simp [hw]
  · have hw2 : ¬((x.ws == c) = true) := by simpa using hw
    rw [if_neg hw2]
    exact h x hx

/-- Voting rewrites the voter's attachment with the same fields, so
registry/attachment synchrony is preserved. -/
theorem attachSync_setVote (l : List SessEntry) (c : Nat) (card : Option String)
    (h : ∀ e ∈ l, e.attach = e.data) :
    ∀ e ∈ setVote l c card, e.attach = e.data := by
  intro e he
  unfold setVote at he
  rcases List.mem_map.mp he with ⟨x, hx, rfl⟩
  by_cases hw : x.ws = c
  · simp [hw]
  · have hw2 : ¬((x.ws == c) = true) := by simpa using hw
    rw [if_neg hw2]
    exact h x hx

/-- Clearing all votes rewrites every attachment with the same fields. -/
theorem attachSync_resetVotes (l : List SessEntry) :
    ∀ e ∈ resetVotes l, e.attach = e.data := by
  intro e he
  unfold resetVotes at he
  rcases List.mem_map.mp he with ⟨x, _, rfl⟩
  rfl

/-- The close/error handler removes exactly the closing connection from
the registry and leaves `revealed` unchanged. -/
theorem closeOrErrorHandler_state (s : RoomState) (c : Nat) :
    (closeOrErrorHandler s c).1.sessions = s.sessions.filter (fun e => e.ws != c) ∧
    (closeOrErrorHandler s c).1.revealed = s.revealed := by
  unfold closeOrErrorHandler
  rcases hf : s.sessions.find? (fun e => e.ws == c) with _ | sess
  · simp [hf]
  · by_cases hname : sess.data.name = ""
    · simp [hf, hname]
    · simp [hf, hname, broadcast_no_fails]

/-- C9: every coordinator operation keeps each session's durable
attachment equal to its in-memory `{userId, name, vote}` (both are always
written together), and the constructor's hibernation recovery rebuilds
from attachments a registry equal to the pre-suspension one while
re-initializing `revealed` to `false` regardless of its prior value. -/
theorem registry_attachment_sync :
    (∀ s c uid, attachSync s → attachSync (handleSession s c uid)) ∧
    (∀ s c inb, attachSync s → attachSync (webSocketMessage s c inb).1) ∧
    (∀ s c, attachSync s → attachSync (closeOrErrorHandler s c).1) ∧
    (∀ conns : List (Nat × SessionData),
      attachSync (restoreSessions conns) ∧ (restoreSessions conns).revealed = false) ∧
    (∀ s : RoomState, attachSync s →
      restoreSessions (s.sessions.map (fun e => (e.ws, e.attach))) =
        { sessions := s.sessions, revealed := false }) := by
  refine ⟨?_, ?_, ?_, ?_, ?_⟩
  · intro s c uid h e he
    simp only [handleSession, List.mem_append, List.mem_singleton] at he
    rcases he with he | rfl
    · exact h e he
    · rfl
  · intro s c inb h
    rcases hf : s.sessions.find? (fun e => e.ws == c) with _ | sess
    · have hid : (webSocketMessage s c inb).1 = s := by
        cases inb <;> simp [webSocketMessage, hf]
      rw [hid]
      exact h
    · cases inb with
      | malformed err =>
        rw [wsm_malformed s c sess err hf]
        exact h
      | unknownTag =>
        rw [wsm_unknown s c sess hf]
        exact h
      | msg m =>
        cases m with
        | join nm =>
          rw [wsm_join s c sess nm hf]
          intro e he
          exact attachSync_setName s.sessions c (nm.take 32) h e he
        | vote card =>
          by_cases hn : sess.data.name = ""
          · rw [wsm_gated_anon s c sess _ hf hn (by simp [joinGated])]
            exact h
          · rw [wsm_vote_named s c sess card hf hn]
            intro e he
            exact attachSync_setVote s.sessions c card h e he
        | reveal =>
          by_cases hn : sess.data.name = ""
          · rw [wsm_gated_anon s c sess _ hf hn (by simp [joinGated])]
            exact h
          · rw [wsm_reveal_named s c sess hf hn]
            intro e he
            exact h e he
        | reset =>
          by_cases hn : sess.data.name = ""
          · rw [wsm_gated_anon s c sess _ hf hn (by simp [joinGated])]
            exact h
          · rw [wsm_reset_named s c sess hf hn]
            intro e he
            exact attachSync_resetVotes s.sessions e he
        | emoji t em =>
          by_cases hn : sess.data.name = ""
          · rw [wsm_gated_anon s c sess _ hf hn (by simp [joinGated])]
            exact h
          · rw [wsm_emoji_named s c sess t em hf hn]
            intro e he
            exact h e he
  · intro s c h e he
    rw [(closeOrErrorHandler_state s c).1] at he
    exact h e (List.mem_filter.mp he).1
  · intro conns
    constructor
    · intro e he
      simp only [restoreSessions] at he
      rcases List.mem_map.mp he with ⟨p, _, rfl⟩
      rfl
    · rfl
  · intro s h
    have hmap : (s.sessions.map (fun e => (e.ws, e.attach))).map
        (fun p : Nat × SessionData =>
          ({ ws := p.1, data := p.2, attach := p.2 } : SessEntry)) =
        s.sessions := by
      rw [List.map_map]
      have h2 : ∀ e ∈ s.sessions,
          ((fun p : Nat × SessionData =>
              ({ ws := p.1, data := p.2, attach := p.2 } : SessEntry)) ∘
            (fun e : SessEntry => (e.ws, e.attach))) e = id e := by
        intro e he
        have had : e.attach = e.data := h e he
        cases e with
        | mk w d a =>
          have had2 : a = d := had
          simp [Function.comp, had2]
      rw [List.map_congr_left h2, List.map_id]
    unfold restoreSessions
    rw [hmap]

set_option maxRecDepth 10000 in
/-- Witness for C9: after Bob votes in `roomHidden`, every attachment
still equals its session's fields, and a hibernation round-trip of
`roomHidden` reproduces the registry with `revealed` reset to false. -/
theorem registry_attachment_sync_witness :
    attachSync (webSocketMessage roomHidden 1
        (Inbound.msg (ClientMessage.vote (some "3")))).1 ∧
    restoreSessions (roomHidden.sessions.map (fun e => (e.ws, e.attach))) =
      { sessions := roomHidden.sessions, revealed := false } :=
  ⟨registry_attachment_sync.2.1 roomHidden 1
      (Inbound.msg (ClientMessage.vote (some "3"))) (by decide),
   registry_attachment_sync.2.2.2.2 roomHidden (by decide)⟩

end PlanningPoker
